import Mathlib

/-!
# Catalog Query & Aggregation Layer — verification development

Shallow embedding of the catalog layer of `src/main.py` (a FastAPI backend for
a novel-sharing platform backed by MongoDB), together with the parts of its
environment that the code's behaviour depends on:

* `bson.ObjectId` (identifier codec): a 24-character string is parsed with
  Python's `bytes.fromhex` after a length check; `str(oid)` produces the
  lowercase hex of the stored bytes.
* MongoDB query semantics restricted to the constructs the code uses:
  equality filters, array-membership filters, `$regex` with the `i` option
  (modelled for the regex subset exercised here: literal characters and the
  `.` wildcard), `$lookup`, `$size`/`$filter`, `$sort`, `$limit`, `find_one`
  (first match in natural order), `count_documents`.
* `database.py` (not part of the sources): its `create_document` and
  `get_documents` helpers are modelled from the spec, §4.2.

The store state is typed per `src/schemas.py`: every chapter's `book_id` is a
string (the encoded form of a book identifier), every document's `_id` is a
store-native `ObjectId`.  Natural (insertion) order of a collection is
modelled as list order.
-/

/-! ### Identifier codec (`bson.ObjectId`, used by `to_obj_id` in `src/main.py`) -/

/-- A store-native identifier: wraps the byte sequence held by a
`bson.ObjectId` (normally 12 bytes, each `< 256`). -/
structure ObjectId where
  bytes : List Nat
deriving DecidableEq, Repr

/-- Value of a hex digit, on character codes: `0`-`9`, `a`-`f`, `A`-`F`. -/
def hexVal? (n : Nat) : Option Nat :=
  if 48 ≤ n ∧ n ≤ 57 then some (n - 48)
  else if 97 ≤ n ∧ n ≤ 102 then some (n - 87)
  else if 65 ≤ n ∧ n ≤ 70 then some (n - 55)
  else none

/-- ASCII whitespace, which Python's `bytes.fromhex` skips between byte
pairs. -/
def isPyWhitespace (c : Char) : Bool :=
  c == ' ' || c == '\t' || c == '\n' || c == '\r' || c == '\x0b' || c == '\x0c'

/-- Python's `bytes.fromhex`: whitespace may separate byte pairs, each pair is
two adjacent hex digits (either case). -/
def bytesFromHex : List Char → Option (List Nat)
  | [] => some []
  | c :: cs =>
    if isPyWhitespace c then bytesFromHex cs
    else
      match cs with
      | [] => none
      | c2 :: cs2 =>
        match hexVal? c.toNat, hexVal? c2.toNat with
        | some hi, some lo => (bytesFromHex cs2).map (fun r => (16 * hi + lo) :: r)
        | _, _ => none

/-- `bson.ObjectId(id_str)` for a string argument: requires length 24, then
parses with `bytes.fromhex`; returns `none` where the constructor raises
`InvalidId`. -/
def objectIdOfString (s : String) : Option ObjectId :=
  if s.length = 24 then (bytesFromHex s.data).map ObjectId.mk else none

/-- `bson.ObjectId.is_valid` for a string argument: true exactly when the
constructor would succeed. -/
def objectIdIsValid (s : String) : Bool :=
  (objectIdOfString s).isSome

/-- The errors this layer raises (`HTTPException` in `src/main.py`);
`invalidId` is the 400 "Invalid ID" of `to_obj_id`. -/
inductive ApiErr where
  | invalidId
deriving DecidableEq, Repr

deriving instance DecidableEq for Except

/-- `to_obj_id` (src/main.py:27-31): wrap `ObjectId(id_str)`, turning any
constructor failure into the 400 "Invalid ID" client error. -/
def to_obj_id (id_str : String) : Except ApiErr ObjectId :=
  match objectIdOfString id_str with
  | some o => Except.ok o
  | none => Except.error ApiErr.invalidId

/-- Lowercase hex digit for a value `< 16` (as produced by `bytes.hex()`). -/
def hexDigitChar (n : Nat) : Char :=
  if n < 10 then Char.ofNat (n + 48) else Char.ofNat (n + 87)

/-- One byte as two lowercase hex characters. -/
def byteToHexChars (b : Nat) : List Char :=
  [hexDigitChar (b / 16), hexDigitChar (b % 16)]

/-- `bytes.hex()`: lowercase hex of a byte sequence. -/
def bytesToHex (bs : List Nat) : List Char :=
  (bs.map byteToHexChars).flatten

/-- `str(oid)` for a `bson.ObjectId`: the lowercase-hex encoding of its
bytes — the canonical client-facing identifier string. -/
def oidToString (o : ObjectId) : String :=
  String.mk (bytesToHex o.bytes)

/-! ### BSON values and comparison (used by `$lookup` in the trending
pipeline, where a book's `_id` is compared with a chapter's `book_id`). -/

/-- The BSON value shapes compared by the code: native identifiers and
strings. -/
inductive BVal where
  | oid (o : ObjectId)
  | str (s : String)
deriving DecidableEq, Repr

/-- BSON equality as used by `$lookup`'s `localField`/`foreignField` match:
values of different BSON types never compare equal. -/
def bsonEq : BVal → BVal → Bool
  | BVal.oid a, BVal.oid b => a == b
  | BVal.str a, BVal.str b => a == b
  | _, _ => false

/-! ### Stored documents (typed per `src/schemas.py`) and the store state -/

/-- A stored `book` document (schema `Book` plus the store-generated `_id`). -/
structure BookDoc where
  id : ObjectId
  title : String
  description : Option String
  author_name : String
  cover_url : Option String
  tags : List String
  categories : List String
  genre : Option String
  status : String
deriving DecidableEq, Repr

/-- A stored `chapter` document (schema `Chapter` plus `_id`); `book_id` is a
string — the encoded form of some book identifier — per `schemas.py`. -/
structure ChapterDoc where
  id : ObjectId
  book_id : String
  title : String
  content : String
  chapter_number : Int
deriving DecidableEq, Repr

/-- A stored `libraryitem` document (schema `LibraryItem` plus `_id`). -/
structure LibraryItemDoc where
  id : ObjectId
  user_id : String
  book_id : String
deriving DecidableEq, Repr

/-- The document store: one list per collection touched by the claims, in
natural (insertion) order, plus a supply for store-generated identifiers. -/
structure DB where
  books : List BookDoc
  chapters : List ChapterDoc
  libraryitems : List LibraryItemDoc
  nextId : Nat
deriving DecidableEq, Repr

/-- Big-endian byte expansion, fixed width. -/
def natToBytes : Nat → Nat → List Nat
  | 0, _ => []
  | k + 1, n => natToBytes k (n / 256) ++ [n % 256]

/-- A fresh store-generated 12-byte identifier, drawn from the supply. -/
def freshOid (n : Nat) : ObjectId :=
  ObjectId.mk (natToBytes 12 n)

/-! ### Returned documents

The handlers return the stored documents with `doc["_id"] = str(doc["_id"])`
applied; `IdVal` records whether an identifier field still holds the
store-native value or its encoded string form, so that "no native identifier
leaks" is expressible. -/

/-- An identifier slot in a returned document: still native, or already
encoded to a string. -/
inductive IdVal where
  | native (o : ObjectId)
  | encoded (s : String)
deriving DecidableEq, Repr

/-- Whether an identifier slot holds the encoded string form. -/
def IdVal.isEncoded : IdVal → Bool
  | IdVal.native _ => false
  | IdVal.encoded _ => true

/-- A `book` document as returned by the handlers (after the
`b["_id"] = str(b["_id"])` loop). -/
structure BookView where
  id : IdVal
  title : String
  description : Option String
  author_name : String
  cover_url : Option String
  tags : List String
  categories : List String
  genre : Option String
  status : String
deriving DecidableEq, Repr

/-- The stringify step the handlers apply to each book before returning it. -/
def toBookView (b : BookDoc) : BookView :=
  { id := IdVal.encoded (oidToString b.id)
    title := b.title
    description := b.description
    author_name := b.author_name
    cover_url := b.cover_url
    tags := b.tags
    categories := b.categories
    genre := b.genre
    status := b.status }

/-! ### Regular-expression matching (`$regex` with `$options: "i"`)

Modelled PCRE subset restricted to the constructs relevant to the claims:
literal characters and the `.` wildcard (which does not match a newline); the
`i` option compares characters after `Char.toLower`.  Other metacharacters
are out of the modelled subset and the general theorems about the filter
quantify only over patterns free of all PCRE metacharacters. -/

/-- A regex atom of the modelled subset. -/
inductive RAtom where
  | dot
  | lit (c : Char)
deriving DecidableEq, Repr

/-- Parse a pattern string of the modelled subset. -/
def parseRegex (l : List Char) : List RAtom :=
  l.map (fun c => if c = '.' then RAtom.dot else RAtom.lit c)

/-- One atom against one character, case-insensitively (option `i`). -/
def atomMatch : RAtom → Char → Bool
  | RAtom.dot, c => c != '\n'
  | RAtom.lit a, c => a.toLower == c.toLower

/-- The pattern matches at the start of the text. -/
def matchHere : List RAtom → List Char → Bool
  | [], _ => true
  | _ :: _, [] => false
  | p :: ps, c :: cs => atomMatch p c && matchHere ps cs

/-- Unanchored search: the pattern matches at some position of the text. -/
def regexSearch (p : List RAtom) : List Char → Bool
  | [] => matchHere p []
  | c :: cs => matchHere p (c :: cs) || regexSearch p cs

/-- MongoDB `{"title": {"$regex": q, "$options": "i"}}` applied to a title. -/
def titleRegexMatch (q title : String) : Bool :=
  regexSearch (parseRegex q.data) title.data

/-! ### BookFilter builder (`list_books`, src/main.py:86-96) -/

/-- A filter dictionary over the `book` collection: one optional entry per
query parameter the code may add (`none` = key absent). -/
structure BookFilter where
  q : Option String
  tag : Option String
  category : Option String
  genre : Option String
deriving DecidableEq, Repr

/-- Python truthiness of an `Optional[str]`: `None` and `""` are falsy, so
`if q:` keeps only non-empty strings. -/
def keepTruthy : Option String → Option String
  | none => none
  | some s => if s = "" then none else some s

/-- The `filter_dict` built by `list_books`: each parameter is added only if
truthy. -/
def buildFilter (q tag category genre : Option String) : BookFilter :=
  { q := keepTruthy q
    tag := keepTruthy tag
    category := keepTruthy category
    genre := keepTruthy genre }

/-- The `title` constraint of the filter (a case-insensitive `$regex`). -/
def qCond (f : BookFilter) (b : BookDoc) : Bool :=
  match f.q with
  | none => true
  | some qs => titleRegexMatch qs b.title

/-- The `tags` constraint: MongoDB equality on an array field holds when the
array contains the value as an element. -/
def tagCond (f : BookFilter) (b : BookDoc) : Bool :=
  match f.tag with
  | none => true
  | some t => b.tags.contains t

/-- The `categories` constraint, same array-membership semantics. -/
def categoryCond (f : BookFilter) (b : BookDoc) : Bool :=
  match f.category with
  | none => true
  | some c => b.categories.contains c

/-- The `genre` constraint: exact equality against the `genre` field. -/
def genreCond (f : BookFilter) (b : BookDoc) : Bool :=
  match f.genre with
  | none => true
  | some g => b.genre == some g

/-- A MongoDB filter document matches when every present field constraint
holds (conjunction). -/
def bookMatches (f : BookFilter) (b : BookDoc) : Bool :=
  qCond f b && tagCond f b && categoryCond f b && genreCond f b

/-- Modelled from the spec: `database.py`'s `get_documents(collection,
filter, limit)` (§4.2 `find`) — the matching documents of the collection, in
natural order, up to `limit`; specialized to the `book` collection. -/
def get_documents_books (s : DB) (f : BookFilter) (limit : Nat) : List BookDoc :=
  (s.books.filter (fun b => bookMatches f b)).take limit

/-- `list_books` (src/main.py:78-99): build `filter_dict` from the truthy
parameters, fetch up to `limit` books, stringify each `_id`. -/
def list_books (s : DB) (q tag category genre : Option String) (limit : Nat) :
    List BookView :=
  (get_documents_books s (buildFilter q tag category genre) limit).map toBookView

/-- `discover_by_tag` (src/main.py:199-204): fetch with the literal filter
`{"tags": tag}` (no truthiness check) and stringify each `_id`. -/
def discover_by_tag (s : DB) (tag : String) (limit : Nat) : List BookView :=
  (get_documents_books s (BookFilter.mk none (some tag) none none) limit).map toBookView

/-! ### Chapter creation (`create_chapter`, src/main.py:112-119) -/

/-- The `Chapter` request body (schema `Chapter` from `src/schemas.py`). -/
structure ChapterIn where
  book_id : String
  title : String
  content : String
  chapter_number : Option Int
deriving DecidableEq, Repr

/-- `count_documents({"book_id": chapter.book_id})` on the `chapter`
collection. -/
def countChaptersFor (s : DB) (book_id : String) : Nat :=
  (s.chapters.filter (fun c => c.book_id == book_id)).length

/-- `create_chapter` (src/main.py:112-119): if `chapter_number` is absent,
set it to `count + 1`; then insert via `create_document` (modelled from the
spec, §4.2: append the document with a fresh identifier and return its
encoded string).  Returns the response id and the new store state. -/
def create_chapter (s : DB) (chapter : ChapterIn) : String × DB :=
  let n : Int :=
    match chapter.chapter_number with
    | none => (countChaptersFor s chapter.book_id : Int) + 1
    | some k => k
  let doc : ChapterDoc :=
    { id := freshOid s.nextId
      book_id := chapter.book_id
      title := chapter.title
      content := chapter.content
      chapter_number := n }
  (oidToString doc.id,
   { s with chapters := s.chapters ++ [doc], nextId := s.nextId + 1 })

/-! ### Library (`add_to_library`, `get_library`, src/main.py:155-174) -/

/-- `add_to_library` (src/main.py:155-161): `find_one` on the
`(user_id, book_id)` pair (first match in natural order); if present, return
its encoded id unchanged, otherwise insert via `create_document` (modelled
from the spec, §4.2).  Returns the response id and the new store state. -/
def add_to_library (s : DB) (user_id book_id : String) : String × DB :=
  match (s.libraryitems.filter
      (fun it => it.user_id == user_id && it.book_id == book_id)).head? with
  | some existing => (oidToString existing.id, s)
  | none =>
    let doc : LibraryItemDoc :=
      { id := freshOid s.nextId, user_id := user_id, book_id := book_id }
    (oidToString doc.id,
     { s with libraryitems := s.libraryitems ++ [doc], nextId := s.nextId + 1 })

/-- The Python dict `{str(b["_id"]): b for b in books}`: lookup by canonical
encoded id; on duplicate keys the last insertion wins, hence `getLast?`. -/
def bookMapGet (books : List BookDoc) (bid : String) : Option BookDoc :=
  (books.filter (fun b => oidToString b.id == bid)).getLast?

/-- The `book_id` strings of the user's library items, in natural (save)
order — `items`/`book_ids` of src/main.py:166-167. -/
def libraryBookIds (s : DB) (user_id : String) : List String :=
  (s.libraryitems.filter (fun it => it.user_id == user_id)).map
    (fun it => it.book_id)

/-- The batched `$in` fetch of src/main.py:168: the books whose native id is
among the decoded `book_id`s that pass `ObjectId.is_valid`. -/
def libraryFetchedBooks (s : DB) (user_id : String) : List BookDoc :=
  s.books.filter
    (fun b => ((libraryBookIds s user_id).filterMap objectIdOfString).contains b.id)

/-- `get_library` (src/main.py:164-174): fetch the user's library items in
natural order, decode the `book_id`s that pass `ObjectId.is_valid`, batch
fetch the books with those ids, key them by `str(_id)`, and keep, in item
order, each `book_id` found in the map (the dict values alias the stringified
books, hence `toBookView`). -/
def get_library (s : DB) (user_id : String) : List BookView :=
  (libraryBookIds s user_id).filterMap
    (fun bid => (bookMapGet (libraryFetchedBooks s user_id) bid).map toBookView)

/-! ### Trending (`discover_trending`, src/main.py:178-196) -/

/-- An element of the `$lookup` result can be compared to BSON null by the
pipeline's `$filter`; an element is always a chapter document here, and a
document is never BSON null. -/
def chapterNotNull (_ : ChapterDoc) : Bool :=
  true

/-- One book after the `$lookup` and `$addFields` stages: the attached
`chapters` array and the `chapters_count` field. -/
structure TrendEntry where
  book : BookDoc
  chapters : List ChapterDoc
  chapters_count : Nat
deriving DecidableEq, Repr

/-- The `$lookup` stage for one book: chapters whose `book_id` (a BSON
string) equals the book's `_id` (a BSON ObjectId), plus the `$addFields`
count of non-null elements. -/
def trendEntry (s : DB) (b : BookDoc) : TrendEntry :=
  let joined := s.chapters.filter
    (fun c => bsonEq (BVal.oid b.id) (BVal.str c.book_id))
  { book := b
    chapters := joined
    chapters_count := (joined.filter chapterNotNull).length }

/-- Insert into a list already sorted by `chapters_count` descending,
keeping earlier (natural-order) entries first among equal counts. -/
def insByCount (x : TrendEntry) : List TrendEntry → List TrendEntry
  | [] => [x]
  | y :: ys =>
    if y.chapters_count > x.chapters_count then y :: insByCount x ys
    else x :: y :: ys

/-- The `$sort` stage, `{"chapters_count": -1, "updated_at": -1}`: no book
document carries an `updated_at` field (`schemas.py` defines none), so the
secondary key is missing — equal — on every document and only the count
sorts; MongoDB leaves the order of equal keys unspecified, modelled here as
the stable natural order. -/
def sortByCountDesc : List TrendEntry → List TrendEntry
  | [] => []
  | x :: xs => insByCount x (sortByCountDesc xs)

/-- A document returned by `discover_trending`: all book fields, the
attached raw `chapters` array (its elements keep their native `_id`s — the
stringify loop touches only the top-level `_id`), and `chapters_count`. -/
structure TrendView where
  id : IdVal
  title : String
  description : Option String
  author_name : String
  cover_url : Option String
  tags : List String
  categories : List String
  genre : Option String
  status : String
  chapters : List ChapterDoc
  chapters_count : Nat
deriving DecidableEq, Repr

/-- The `d["_id"] = str(d["_id"])` step on a pipeline result document. -/
def toTrendView (e : TrendEntry) : TrendView :=
  { id := IdVal.encoded (oidToString e.book.id)
    title := e.book.title
    description := e.book.description
    author_name := e.book.author_name
    cover_url := e.book.cover_url
    tags := e.book.tags
    categories := e.book.categories
    genre := e.book.genre
    status := e.book.status
    chapters := e.chapters
    chapters_count := e.chapters_count }

/-- `discover_trending` (src/main.py:178-196): the aggregation pipeline
(`$lookup`, `$addFields`, `$sort`, `$limit`) over the `book` collection,
then the top-level `_id` stringify loop. -/
def discover_trending (s : DB) (limit : Nat) : List TrendView :=
  ((sortByCountDesc (s.books.map (trendEntry s))).take limit).map toTrendView

/-! ### Claim-side notions (predicates the claims are stated with) -/

/-- A lowercase hex digit (`0`-`9`, `a`-`f`), on character codes. -/
def isLowerHexDigit (c : Char) : Bool :=
  (48 ≤ c.toNat && c.toNat ≤ 57) || (97 ≤ c.toNat && c.toNat ≤ 102)

/-- A hex digit of either case. -/
def isHexDigitCI (c : Char) : Bool :=
  (hexVal? c.toNat).isSome

/-- The claim's identifier format: a 24-character lowercase hex string. -/
def is24LowerHex (s : String) : Bool :=
  s.length == 24 && s.data.all isLowerHexDigit

/-- A 24-character hex string of either case (no whitespace). -/
def is24HexCI (s : String) : Bool :=
  s.length == 24 && s.data.all isHexDigitCI

/-- Lowercase a character list (`Char.toLower` pointwise). -/
def lowerStr (l : List Char) : List Char :=
  l.map Char.toLower

/-- Case-insensitive prefix test on raw character lists. -/
def substrHere : List Char → List Char → Bool
  | [], _ => true
  | _ :: _, [] => false
  | a :: qs, b :: ts => (a.toLower == b.toLower) && substrHere qs ts

/-- Case-insensitive unanchored substring search. -/
def substrSearch (q : List Char) : List Char → Bool
  | [] => substrHere q []
  | b :: ts => substrHere q (b :: ts) || substrSearch q ts

/-- The claim's notion for `textQuery`: `q` occurs as a case-insensitive
substring of `t` (unanchored). -/
def isSubstrCI (q t : String) : Bool :=
  substrSearch q.data t.data

/-- The PCRE metacharacters; the claims' "arbitrary q including regex
metacharacters" fails, and the amended claims quantify over patterns free of
these. -/
def regexMetachars : List Char :=
  ['.', '*', '+', '?', '[', ']', '(', ')', '\x7b', '\x7d', '^', '$', '\\', '|']

/-- A pattern free of every PCRE metacharacter. -/
def noMetachar (q : String) : Bool :=
  q.data.all (fun c => !(regexMetachars.contains c))

/-- The strings accepted by the hex-pair parser underlying the identifier
codec: byte pairs of hex digits (either case), ASCII whitespace permitted
between pairs. -/
def hexPairsOK : List Char → Bool
  | [] => true
  | c :: cs =>
    if isPyWhitespace c then hexPairsOK cs
    else
      match cs with
      | [] => false
      | c2 :: cs2 => isHexDigitCI c && isHexDigitCI c2 && hexPairsOK cs2

/-- The number of stored `libraryitem` records for a `(user_id, book_id)`
pair. -/
def libCountPair (s : DB) (user_id book_id : String) : Nat :=
  (s.libraryitems.filter
    (fun it => it.user_id == user_id && it.book_id == book_id)).length

/-- The well-formedness the store guarantees for its generated identifiers:
12 bytes, each an actual byte. -/
def ObjectId.WF (o : ObjectId) : Prop :=
  o.bytes.length = 12 ∧ ∀ b ∈ o.bytes, b < 256

/-- Store states whose book identifiers are store-generated (well-formed). -/
def DB.WF (s : DB) : Prop :=
  ∀ b ∈ s.books, b.id.WF

/-! ### Fixtures (concrete states used by the counterexamples and witnesses) -/

/-- A book document with a given identifier-supply index, title and tags. -/
def mkBook (n : Nat) (t : String) (tgs : List String) : BookDoc :=
  { id := freshOid n, title := t, description := none, author_name := "author"
    cover_url := none, tags := tgs, categories := [], genre := none
    status := "ongoing" }

/-- A chapter document referencing a book by its encoded string id. -/
def mkChapter (n : Nat) (bid : String) (k : Int) : ChapterDoc :=
  { id := freshOid n, book_id := bid, title := "ch", content := "text"
    chapter_number := k }

/-- A library item document. -/
def mkItem (n : Nat) (u bid : String) : LibraryItemDoc :=
  { id := freshOid n, user_id := u, book_id := bid }

/-- The spec's trending fixture: books A, B, C carrying 5, 0 and 3 chapters
respectively, the chapters referencing their books by encoded string id. -/
def trendDB : DB :=
  { books := [mkBook 1 "A" [], mkBook 2 "B" [], mkBook 3 "C" []]
    chapters :=
      [mkChapter 10 (oidToString (freshOid 1)) 1
       , mkChapter 11 (oidToString (freshOid 1)) 2
       , mkChapter 12 (oidToString (freshOid 1)) 3
       , mkChapter 13 (oidToString (freshOid 1)) 4
       , mkChapter 14 (oidToString (freshOid 1)) 5
       , mkChapter 15 (oidToString (freshOid 3)) 1
       , mkChapter 16 (oidToString (freshOid 3)) 2
       , mkChapter 17 (oidToString (freshOid 3)) 3]
    libraryitems := []
    nextId := 100 }

/-- A one-book store: title `"x"`, tags `["a"]`. -/
def tagBook : BookDoc :=
  mkBook 1 "x" ["a"]

/-- Store holding only `tagBook`. -/
def tagDB : DB :=
  { books := [tagBook], chapters := [], libraryitems := [], nextId := 100 }

/-- A book whose title contains `"abc"` case-insensitively. -/
def substrBook : BookDoc :=
  mkBook 2 "xAbCx" []

/-- The spec's library fixture: books A and C stored, the user's items
reference A, the since-deleted B, then C, in that save order. -/
def libDB : DB :=
  { books := [mkBook 1 "A" [], mkBook 3 "C" []]
    chapters := []
    libraryitems :=
      [mkItem 20 "u" (oidToString (freshOid 1))
       , mkItem 21 "u" (oidToString (freshOid 2))
       , mkItem 22 "u" (oidToString (freshOid 3))]
    nextId := 100 }

/-- A stored book whose identifier bytes are all `0xaa`, so its canonical
encoding is 24 `'a'`s. -/
def upBook : BookDoc :=
  { id := ObjectId.mk (List.replicate 12 170), title := "A", description := none
    author_name := "author", cover_url := none, tags := [], categories := []
    genre := none, status := "ongoing" }

/-- Store where the user's single library item holds the UPPERCASE hex form
of `upBook`'s identifier. -/
def upDB : DB :=
  { books := [upBook]
    chapters := []
    libraryitems := [mkItem 9 "u" "AAAAAAAAAAAAAAAAAAAAAAAA"]
    nextId := 100 }

/-- The spec's chapter-numbering fixture: two chapters numbered 1 and 2
already exist for book `"B"`. -/
def chapDB : DB :=
  { books := []
    chapters := [mkChapter 30 "B" 1, mkChapter 31 "B" 2]
    libraryitems := []
    nextId := 100 }

/-- A chapter creation request for book `"B"` with no `chapter_number`. -/
def chapReq : ChapterIn :=
  { book_id := "B", title := "t", content := "c", chapter_number := none }

/-- The empty store. -/
def emptyDB : DB :=
  { books := [], chapters := [], libraryitems := [], nextId := 0 }

/-! ## Helper lemmas: the identifier codec -/

theorem hexDigitChar_facts : ∀ v < 16,
    isPyWhitespace (hexDigitChar v) = false ∧
    hexVal? (hexDigitChar v).toNat = some v := by
  decide

theorem pyWhitespace_toNat {c : Char} (h : isPyWhitespace c = true) :
    c.toNat < 48 := by
  simp only [isPyWhitespace, Bool.or_eq_true, beq_iff_eq] at h
  rcases h with ((((rfl | rfl) | rfl) | rfl) | rfl) | rfl <;> decide

theorem lowerHexDigit_bounds {c : Char} (h : isLowerHexDigit c = true) :
    (48 ≤ c.toNat ∧ c.toNat ≤ 57) ∨ (97 ≤ c.toNat ∧ c.toNat ≤ 102) := by
  simpa [isLowerHexDigit, Bool.or_eq_true, Bool.and_eq_true,
    decide_eq_true_eq] using h

theorem lowerHexDigit_not_ws {c : Char} (h : isLowerHexDigit c = true) :
    isPyWhitespace c = false := by
  have hb := lowerHexDigit_bounds h
  cases hw : isPyWhitespace c
  · rfl
  · have := pyWhitespace_toNat hw
    omega

theorem hexVal?_isSome_bound {n : Nat} (h : (hexVal? n).isSome = true) :
    48 ≤ n := by
  unfold hexVal? at h
  split_ifs at h with h1 h2 h3
  · omega
  · omega
  · omega
  · simp at h

theorem hexDigitCI_not_ws {c : Char} (h : isHexDigitCI c = true) :
    isPyWhitespace c = false := by
  have hb := hexVal?_isSome_bound (h := by simpa [isHexDigitCI] using h)
  cases hw : isPyWhitespace c
  · rfl
  · have := pyWhitespace_toNat hw
    omega

theorem lowerHexDigit_roundtrip {c : Char} (h : isLowerHexDigit c = true) :
    ∃ v, v < 16 ∧ hexVal? c.toNat = some v ∧ hexDigitChar v = c := by
  rcases lowerHexDigit_bounds h with ⟨h1, h2⟩ | ⟨h1, h2⟩
  · refine ⟨c.toNat - 48, by omega, ?_, ?_⟩
    · unfold hexVal?
      rw [if_pos ⟨h1, h2⟩]
    · unfold hexDigitChar
      rw [if_pos (by omega : c.toNat - 48 < 10),
        show c.toNat - 48 + 48 = c.toNat by omega]
      exact Char.ofNat_toNat c
  · refine ⟨c.toNat - 87, by omega, ?_, ?_⟩
    · unfold hexVal?
      rw [if_neg (by omega), if_pos ⟨h1, h2⟩]
    · unfold hexDigitChar
      rw [if_neg (by omega : ¬(c.toNat - 87 < 10)),
        show c.toNat - 87 + 87 = c.toNat by omega]
      exact Char.ofNat_toNat c

theorem lowerHexDigit_isCI {c : Char} (h : isLowerHexDigit c = true) :
    isHexDigitCI c = true := by
  obtain ⟨v, _, hv, _⟩ := lowerHexDigit_roundtrip h
  simp [isHexDigitCI, hv]

theorem bytesFromHex_cons_cons {c1 c2 : Char} {cs : List Char} {v1 v2 : Nat}
    (h1 : hexVal? c1.toNat = some v1) (h2 : hexVal? c2.toNat = some v2)
    (hw : isPyWhitespace c1 = false) :
    bytesFromHex (c1 :: c2 :: cs) =
      (bytesFromHex cs).map (fun r => (16 * v1 + v2) :: r) := by
  simp [bytesFromHex, hw, h1, h2]

theorem lowerhex_parse : ∀ l : List Char,
    (∀ c ∈ l, isLowerHexDigit c = true) → l.length % 2 = 0 →
    ∃ bs, bytesFromHex l = some bs ∧ bytesToHex bs = l ∧ ∀ b ∈ bs, b < 256
  | [], _, _ => ⟨[], rfl, rfl, by simp⟩
  | [c], _, he => by simp at he
  | c1 :: c2 :: cs, h, he => by
    obtain ⟨v1, hv1lt, hv1, hc1⟩ := lowerHexDigit_roundtrip (h c1 (by simp))
    obtain ⟨v2, hv2lt, hv2, hc2⟩ := lowerHexDigit_roundtrip (h c2 (by simp))
    have hw := lowerHexDigit_not_ws (h c1 (by simp))
    obtain ⟨bs, hbs, hhex, hlt⟩ :=
      lowerhex_parse cs (fun c hc => h c (by simp [hc]))
        (by simp [List.length_cons] at he ⊢; omega)
    refine ⟨(16 * v1 + v2) :: bs, ?_, ?_, ?_⟩
    · rw [bytesFromHex_cons_cons hv1 hv2 hw, hbs]
      rfl
    · simp only [bytesToHex, List.map_cons, List.flatten_cons, byteToHexChars]
      rw [show (16 * v1 + v2) / 16 = v1 by omega,
        show (16 * v1 + v2) % 16 = v2 by omega, hc1, hc2]
      simp only [bytesToHex] at hhex
      rw [List.cons_append, List.cons_append, List.nil_append, hhex]
    · intro b hb
      rcases List.mem_cons.mp hb with rfl | hb
      · omega
      · exact hlt b hb

theorem cihex_parse : ∀ l : List Char,
    (∀ c ∈ l, isHexDigitCI c = true) → l.length % 2 = 0 →
    (bytesFromHex l).isSome = true
  | [], _, _ => rfl
  | [c], _, he => by simp at he
  | c1 :: c2 :: cs, h, he => by
    have h1 : ∃ v1, hexVal? c1.toNat = some v1 := by
      have := h c1 (by simp)
      simpa [isHexDigitCI, Option.isSome_iff_exists] using this
    have h2 : ∃ v2, hexVal? c2.toNat = some v2 := by
      have := h c2 (by simp)
      simpa [isHexDigitCI, Option.isSome_iff_exists] using this
    obtain ⟨v1, hv1⟩ := h1
    obtain ⟨v2, hv2⟩ := h2
    have hw := hexDigitCI_not_ws (h c1 (by simp))
    have ih := cihex_parse cs (fun c hc => h c (by simp [hc]))
      (by simp [List.length_cons] at he ⊢; omega)
    rw [bytesFromHex_cons_cons hv1 hv2 hw]
    simpa [Option.isSome_map] using ih

theorem bytesFromHex_bytesToHex : ∀ bs : List Nat, (∀ b ∈ bs, b < 256) →
    bytesFromHex (bytesToHex bs) = some bs
  | [], _ => rfl
  | b :: bs, h => by
    have hb : b < 256 := h b (by simp)
    obtain ⟨hw1, hv1⟩ := hexDigitChar_facts (b / 16) (by omega)
    obtain ⟨hw2, hv2⟩ := hexDigitChar_facts (b % 16) (by omega)
    have ih := bytesFromHex_bytesToHex bs (fun x hx => h x (by simp [hx]))
    simp only [bytesToHex, List.map_cons, List.flatten_cons, byteToHexChars,
      List.cons_append, List.nil_append]
    rw [show ((List.map byteToHexChars bs).flatten : List Char) =
      bytesToHex bs from rfl]
    rw [bytesFromHex_cons_cons hv1 hv2 hw1, ih]
    simp
    omega

theorem bytesToHex_length : ∀ bs : List Nat,
    (bytesToHex bs).length = 2 * bs.length
  | [] => rfl
  | b :: bs => by
    simp only [bytesToHex, List.map_cons, List.flatten_cons, byteToHexChars,
      List.cons_append, List.nil_append, List.length_cons]
    rw [show ((List.map byteToHexChars bs).flatten : List Char) =
      bytesToHex bs from rfl, bytesToHex_length bs]
    omega

theorem objectIdOfString_oidToString {o : ObjectId} (h : o.WF) :
    objectIdOfString (oidToString o) = some o := by
  obtain ⟨hlen, hbytes⟩ := h
  unfold objectIdOfString oidToString
  rw [if_pos (by
    show (String.mk (bytesToHex o.bytes)).length = 24
    have h1 : (String.mk (bytesToHex o.bytes)).length =
        (bytesToHex o.bytes).length := rfl
    rw [h1, bytesToHex_length, hlen])]
  have hdata : (String.mk (bytesToHex o.bytes)).data = bytesToHex o.bytes := rfl
  rw [hdata, bytesFromHex_bytesToHex o.bytes hbytes]
  rfl

theorem to_obj_id_isOk (s : String) :
    (to_obj_id s).isOk = (objectIdOfString s).isSome := by
  unfold to_obj_id
  cases objectIdOfString s <;> rfl

theorem bytesFromHex_isSome_eq : ∀ l : List Char,
    (bytesFromHex l).isSome = hexPairsOK l
  | [] => rfl
  | [c] => by
    by_cases hw : isPyWhitespace c
    · simp [bytesFromHex, hexPairsOK, hw]
    · simp [bytesFromHex, hexPairsOK, hw]
  | c1 :: c2 :: cs => by
    by_cases hw : isPyWhitespace c1
    · have ih := bytesFromHex_isSome_eq (c2 :: cs)
      simp only [bytesFromHex, hexPairsOK, hw, if_true]
      exact ih
    · have ih := bytesFromHex_isSome_eq cs
      simp only [bytesFromHex, hexPairsOK, hw, if_false, Bool.false_eq_true,
        ite_false]
      cases hv1 : hexVal? c1.toNat <;> cases hv2 : hexVal? c2.toNat <;>
        simp [isHexDigitCI, hv1, hv2, Option.isSome_map, ih]

/-! ## C2 — identifier decoding (`to_obj_id`) -/

/-- **C2, counterexample.** The 24-character uppercase string of `'A'`s is
not a 24-character lowercase hexadecimal string, yet `to_obj_id` accepts it:
decoding does not fail exactly on non-lowercase-hex inputs as the claim
states. -/
theorem to_obj_id_uppercase_counterexample :
    (to_obj_id "AAAAAAAAAAAAAAAAAAAAAAAA").isOk = true ∧
    is24LowerHex "AAAAAAAAAAAAAAAAAAAAAAAA" = false := by
  decide

/-- **C2 (amended).** `to_obj_id` fails with the `InvalidIdentifier` client
error exactly when the string is not a 24-character sequence of hex byte
pairs (hex digits of either case, ASCII whitespace permitted between pairs);
in particular every 24-character hex string of either case decodes, and
decode followed by encode is the identity on 24-character lowercase hex
strings. -/
theorem to_obj_id_hex_spec (s : String) :
    ((to_obj_id s).isOk = (s.length == 24 && hexPairsOK s.data)) ∧
    (is24HexCI s = true → (to_obj_id s).isOk = true) ∧
    (is24LowerHex s = true →
      ∃ o, to_obj_id s = Except.ok o ∧ oidToString o = s) := by
  have hlen : s.length = s.data.length := rfl
  refine ⟨?_, ?_, ?_⟩
  · rw [to_obj_id_isOk]
    unfold objectIdOfString
    by_cases h24 : s.length = 24
    · rw [if_pos h24]
      simp [h24, Option.isSome_map, bytesFromHex_isSome_eq]
    · rw [if_neg h24]
      simp [h24]
  · intro h
    simp only [is24HexCI, Bool.and_eq_true, beq_iff_eq, List.all_eq_true] at h
    obtain ⟨h24, hall⟩ := h
    rw [to_obj_id_isOk]
    unfold objectIdOfString
    rw [if_pos h24]
    have hp := cihex_parse s.data hall (by rw [← hlen, h24])
    simpa [Option.isSome_map] using hp
  · intro h
    simp only [is24LowerHex, Bool.and_eq_true, beq_iff_eq,
      List.all_eq_true] at h
    obtain ⟨h24, hall⟩ := h
    obtain ⟨bs, hbs, hhex, _⟩ :=
      lowerhex_parse s.data hall (by rw [← hlen, h24])
    have ho : objectIdOfString s = some (ObjectId.mk bs) := by
      unfold objectIdOfString
      rw [if_pos h24, hbs]
      rfl
    refine ⟨ObjectId.mk bs, ?_, ?_⟩
    · unfold to_obj_id
      rw [ho]
    · unfold oidToString
      show String.mk (bytesToHex bs) = s
      rw [hhex]

/-- **C2, witness.** The amended theorem at a concrete lowercase hex
string. -/
theorem to_obj_id_hex_spec_witness :
    ∃ o, to_obj_id "0123456789abcdef01234567" = Except.ok o ∧
      oidToString o = "0123456789abcdef01234567" :=
  (to_obj_id_hex_spec "0123456789abcdef01234567").2.2 (by decide)

/-! ## C5 — chapter auto-numbering (`create_chapter`) -/

/-- **C5.** When `chapter_number` is absent the stored number is `1 +` the
count, at creation time, of chapter documents whose `book_id` equals the
request's; when present it is stored as given; exactly one chapter is
appended either way. -/
theorem create_chapter_autonumber (s : DB) (req : ChapterIn) :
    (req.chapter_number = none →
      ((create_chapter s req).2.chapters.getLast?.map
        (fun c => c.chapter_number)) =
        some ((countChaptersFor s req.book_id : Int) + 1)) ∧
    (∀ n, req.chapter_number = some n →
      ((create_chapter s req).2.chapters.getLast?.map
        (fun c => c.chapter_number)) = some n) ∧
    ((create_chapter s req).2.chapters.length = s.chapters.length + 1) := by
  refine ⟨?_, ?_, ?_⟩
  · intro h
    simp [create_chapter, h, List.getLast?_concat]
  · intro n h
    simp [create_chapter, h, List.getLast?_concat]
  · simp [create_chapter]

/-- **C5, witness.** Creating a chapter for book `"B"` with no number when
chapters numbered 1 and 2 exist for `"B"` stores chapter_number 3. -/
theorem create_chapter_autonumber_witness :
    ((create_chapter chapDB chapReq).2.chapters.getLast?.map
      (fun c => c.chapter_number)) = some 3 := by
  have h := (create_chapter_autonumber chapDB chapReq).1 rfl
  rw [h]
  decide

/-! ## C7 — tag filtering semantics -/

/-- **C7, counterexample.** With `tag=""` the filter matches a book whose
`tags` do not contain `""`: the claim's "for every tag value t … matches
exactly when the tags set contains t" fails at the empty string, which the
code treats as an absent parameter. -/
theorem tag_filter_empty_counterexample :
    list_books tagDB none (some "") none none 50 = [toBookView tagBook] ∧
    tagBook.tags.contains "" = false := by
  decide

/-- **C7 (amended).** For every non-empty tag `t` the filter matches exactly
the documents whose `tags` contain `t` as an exact element; the empty filter
matches every document; all present constraints are conjoined. -/
theorem tag_filter_semantics :
    (∀ (t : String) (b : BookDoc), t ≠ "" →
      bookMatches (buildFilter none (some t) none none) b =
        b.tags.contains t) ∧
    (∀ b : BookDoc, bookMatches (buildFilter none none none none) b = true) ∧
    (∀ (f : BookFilter) (b : BookDoc),
      bookMatches f b =
        (qCond f b && tagCond f b && categoryCond f b && genreCond f b)) := by
  refine ⟨?_, ?_, ?_⟩
  · intro t b ht
    simp [bookMatches, buildFilter, keepTruthy, qCond, tagCond, categoryCond,
      genreCond, ht]
  · intro b
    simp [bookMatches, buildFilter, keepTruthy, qCond, tagCond, categoryCond,
      genreCond]
  · intro f b
    rfl

/-- **C7, witness.** The amended theorem at `t = "a"` on `tagBook`. -/
theorem tag_filter_semantics_witness :
    bookMatches (buildFilter none (some "a") none none) tagBook =
      tagBook.tags.contains "a" :=
  tag_filter_semantics.1 "a" tagBook (by decide)

/-! ## C8 — idempotent library insertion (`add_to_library`) -/

/-- **C8.** Two sequential `add_to_library` calls for the same
`(user_id, book_id)` pair return the same encoded identifier, the second
call leaves the store unchanged, and starting from a state with no record
for the pair the two calls leave exactly one. -/
theorem add_to_library_idempotent (s : DB) (u b : String) :
    ((add_to_library (add_to_library s u b).2 u b).1 =
      (add_to_library s u b).1) ∧
    ((add_to_library (add_to_library s u b).2 u b).2 =
      (add_to_library s u b).2) ∧
    (libCountPair s u b = 0 →
      libCountPair (add_to_library (add_to_library s u b).2 u b).2 u b = 1) := by
  cases hh : (s.libraryitems.filter
      (fun it => it.user_id == u && it.book_id == b)).head? with
  | some ex =>
    have h1 : add_to_library s u b = (oidToString ex.id, s) := by
      unfold add_to_library
      rw [hh]
    refine ⟨by simp [h1], by simp [h1], ?_⟩
    intro hc
    exfalso
    unfold libCountPair at hc
    rw [List.length_eq_zero] at hc
    rw [hc] at hh
    simp at hh
  | none =>
    have hfil : s.libraryitems.filter
        (fun it => it.user_id == u && it.book_id == b) = [] :=
      List.head?_eq_none_iff.mp hh
    set d : LibraryItemDoc :=
      { id := freshOid s.nextId, user_id := u, book_id := b } with hd
    set s1 : DB :=
      { s with libraryitems := s.libraryitems ++ [d], nextId := s.nextId + 1 }
      with hs1
    have h1 : add_to_library s u b = (oidToString (freshOid s.nextId), s1) := by
      unfold add_to_library
      rw [hh]
    have hfil2 : s1.libraryitems.filter
        (fun it => it.user_id == u && it.book_id == b) = [d] := by
      show (s.libraryitems ++ [d]).filter
        (fun it => it.user_id == u && it.book_id == b) = [d]
      rw [List.filter_append, hfil]
      simp [hd]
    have h2 : add_to_library s1 u b = (oidToString d.id, s1) := by
      unfold add_to_library
      rw [hfil2]
      rfl
    refine ⟨?_, ?_, ?_⟩
    · simp only [h1]
      show (add_to_library s1 u b).1 = oidToString (freshOid s.nextId)
      rw [h2, hd]
    · simp only [h1]
      show (add_to_library s1 u b).2 = s1
      rw [h2]
    · intro _
      simp only [h1]
      show libCountPair (add_to_library s1 u b).2 u b = 1
      rw [h2]
      show libCountPair s1 u b = 1
      unfold libCountPair
      rw [hfil2]
      rfl

/-- **C8, witness.** The theorem at the empty store with a concrete pair. -/
theorem add_to_library_idempotent_witness :
    libCountPair
      (add_to_library (add_to_library emptyDB "u" "b").2 "u" "b").2 "u" "b" = 1 :=
  (add_to_library_idempotent emptyDB "u" "b").2.2 (by decide)

/-! ## C9 — empty-string parameters are treated as absent (`list_books`) -/

/-- **C9.** Passing `""` for any of the four query parameters adds no
constraint: the result equals the call with that parameter absent. -/
theorem empty_params_treated_as_absent (s : DB)
    (q tag category genre : Option String) (lim : Nat) :
    (list_books s (some "") tag category genre lim =
      list_books s none tag category genre lim) ∧
    (list_books s q (some "") category genre lim =
      list_books s q none category genre lim) ∧
    (list_books s q tag (some "") genre lim =
      list_books s q tag none genre lim) ∧
    (list_books s q tag category (some "") lim =
      list_books s q tag category none lim) := by
  refine ⟨?_, ?_, ?_, ?_⟩ <;> simp [list_books, buildFilter, keepTruthy]

/-! ## C10 — `discover_by_tag` against `list_books` -/

/-- **C10, counterexample.** At `tag=""` the two endpoints differ: the
dedicated endpoint issues the literal filter `{"tags": ""}` (matching
nothing here) while `list_books` drops the falsy parameter and matches
everything. -/
theorem discover_by_tag_empty_tag_counterexample :
    discover_by_tag tagDB "" 24 = [] ∧
    list_books tagDB none (some "") none none 24 = [toBookView tagBook] := by
  decide

/-- **C10 (amended).** For every non-empty tag the two endpoints issue the
identical store filter and return the same documents. -/
theorem discover_by_tag_refines_list_books (s : DB) (t : String) (lim : Nat)
    (h : t ≠ "") :
    discover_by_tag s t lim = list_books s none (some t) none none lim := by
  simp [discover_by_tag, list_books, buildFilter, keepTruthy, h]

/-- **C10, witness.** The amended theorem at `t = "a"` over `tagDB`. -/
theorem discover_by_tag_refines_list_books_witness :
    discover_by_tag tagDB "a" 24 =
      list_books tagDB none (some "a") none none 24 :=
  discover_by_tag_refines_list_books tagDB "a" 24 (by decide)

/-! ## Helper lemmas: the trending pipeline -/

theorem trendEntry_chapters_nil (s : DB) (b : BookDoc) :
    (trendEntry s b).chapters = [] := by
  show s.chapters.filter
    (fun c => bsonEq (BVal.oid b.id) (BVal.str c.book_id)) = []
  exact List.filter_eq_nil_iff.mpr (fun c _ => by simp [bsonEq])

theorem trendEntry_count_zero (s : DB) (b : BookDoc) :
    (trendEntry s b).chapters_count = 0 := by
  have h : (trendEntry s b).chapters_count =
      ((trendEntry s b).chapters.filter chapterNotNull).length := rfl
  rw [h, trendEntry_chapters_nil]
  rfl

theorem mem_insByCount {x y : TrendEntry} : ∀ {l : List TrendEntry},
    y ∈ insByCount x l ↔ y = x ∨ y ∈ l
  | [] => by simp [insByCount]
  | z :: zs => by
    unfold insByCount
    by_cases h : z.chapters_count > x.chapters_count
    · simp only [if_pos h, List.mem_cons]
      rw [mem_insByCount (l := zs)]
      tauto
    · simp only [if_neg h, List.mem_cons]

theorem mem_sortByCountDesc {y : TrendEntry} : ∀ {l : List TrendEntry},
    y ∈ sortByCountDesc l ↔ y ∈ l
  | [] => Iff.rfl
  | x :: xs => by
    unfold sortByCountDesc
    rw [mem_insByCount, mem_sortByCountDesc (l := xs)]
    simp [List.mem_cons]

/-! ## C1 — trending ranks by chapter count (code bug: the `$lookup` type
mismatch) -/

/-- **C1** (evaluation of the code bug).  The `$lookup` compares each book's
native `_id` (a BSON ObjectId) with each chapter's `book_id` (a BSON
string), which never compare equal, so every returned document carries
`chapters_count = 0` — over the spec's own fixture (books A, B, C with true
chapter counts 5, 0, 3) `discover_trending 2` returns books A and B with
counts 0 instead of the claimed A (5) and C (3). -/
theorem discover_trending_join_mismatch (s : DB) (lim : Nat) :
    ((discover_trending s lim).all (fun d => d.chapters_count == 0)) = true ∧
    ((discover_trending trendDB 2).map
      (fun d => (d.title, d.chapters_count)) = [("A", 0), ("B", 0)]) ∧
    countChaptersFor trendDB (oidToString (freshOid 1)) = 5 ∧
    countChaptersFor trendDB (oidToString (freshOid 2)) = 0 ∧
    countChaptersFor trendDB (oidToString (freshOid 3)) = 3 := by
  refine ⟨?_, by decide, by decide, by decide, by decide⟩
  rw [List.all_eq_true]
  intro x hx
  unfold discover_trending at hx
  obtain ⟨e, he, rfl⟩ := List.mem_map.mp hx
  have he3 : e ∈ s.books.map (trendEntry s) :=
    mem_sortByCountDesc.mp (List.mem_of_mem_take he)
  obtain ⟨b, _, rfl⟩ := List.mem_map.mp he3
  simp [toTrendView, trendEntry_count_zero]

/-! ## C3 — identifier encoding at the boundary -/

/-- **C3.** Every document returned by the embedded read operations carries
its identifier in encoded string form, and the trending documents attach no
nested chapter sub-documents at all (the `$lookup` type mismatch leaves the
`chapters` array empty, so no native chapter identifier can leak either). -/
theorem returned_ids_encoded (s : DB) (q tag category genre : Option String)
    (u t : String) (lim : Nat) :
    ((list_books s q tag category genre lim).all
      (fun d => d.id.isEncoded)) = true ∧
    ((get_library s u).all (fun d => d.id.isEncoded)) = true ∧
    ((discover_by_tag s t lim).all (fun d => d.id.isEncoded)) = true ∧
    ((discover_trending s lim).all
      (fun d => d.id.isEncoded && d.chapters.isEmpty)) = true := by
  refine ⟨?_, ?_, ?_, ?_⟩
  · rw [List.all_eq_true]
    intro x hx
    unfold list_books at hx
    obtain ⟨b, _, rfl⟩ := List.mem_map.mp hx
    rfl
  · rw [List.all_eq_true]
    intro x hx
    unfold get_library at hx
    obtain ⟨bid, _, hbid⟩ := List.mem_filterMap.mp hx
    obtain ⟨bdoc, _, rfl⟩ := Option.map_eq_some'.mp hbid
    rfl
  · rw [List.all_eq_true]
    intro x hx
    unfold discover_by_tag at hx
    obtain ⟨b, _, rfl⟩ := List.mem_map.mp hx
    rfl
  · rw [List.all_eq_true]
    intro x hx
    unfold discover_trending at hx
    obtain ⟨e, he, rfl⟩ := List.mem_map.mp hx
    have he3 : e ∈ s.books.map (trendEntry s) :=
      mem_sortByCountDesc.mp (List.mem_of_mem_take he)
    obtain ⟨b, _, rfl⟩ := List.mem_map.mp he3
    simp [toTrendView, IdVal.isEncoded, trendEntry_chapters_nil]

/-! ## Helper lemmas: regex subset against substring search -/

theorem substrSearch_nil : ∀ t : List Char, substrSearch [] t = true
  | [] => rfl
  | _ :: ts => by
    simp only [substrSearch, substrHere, Bool.true_or]

theorem matchHere_lit : ∀ q t : List Char,
    matchHere (q.map RAtom.lit) t = substrHere q t
  | [], _ => rfl
  | _ :: _, [] => rfl
  | a :: qs, b :: ts => by
    simp only [List.map_cons, matchHere, substrHere, atomMatch]
    rw [matchHere_lit qs ts]

theorem regexSearch_lit : ∀ q t : List Char,
    regexSearch (q.map RAtom.lit) t = substrSearch q t
  | q, [] => by simp only [regexSearch, substrSearch, matchHere_lit]
  | q, b :: ts => by
    simp only [regexSearch, substrSearch, matchHere_lit]
    rw [regexSearch_lit q ts]

theorem parseRegex_no_metachar {q : String} (h : noMetachar q = true) :
    parseRegex q.data = q.data.map RAtom.lit := by
  unfold parseRegex
  apply List.map_congr_left
  intro c hc
  have hc2 : c ∉ regexMetachars := by
    have hall : ∀ x ∈ q.data, x ∉ regexMetachars := by
      simpa [noMetachar, List.all_eq_true] using h
    exact hall c hc
  have hdot : ¬ c = '.' := by
    intro hEq
    subst hEq
    exact hc2 (by simp [regexMetachars])
  rw [if_neg hdot]

theorem substrHere_iff (q : List Char) : ∀ t : List Char,
    substrHere q t = true ↔
      ∃ r, (q.map Char.toLower) ++ r = t.map Char.toLower := by
  induction q with
  | nil =>
    intro t
    exact ⟨fun _ => ⟨t.map Char.toLower, rfl⟩, fun _ => rfl⟩
  | cons a qs ih =>
    intro t
    cases t with
    | nil =>
      simp [substrHere]
    | cons b ts =>
      simp only [substrHere, Bool.and_eq_true, beq_iff_eq, List.map_cons,
        List.cons_append, List.cons.injEq]
      rw [ih ts]
      constructor
      · rintro ⟨h1, r, h2⟩
        exact ⟨r, h1, h2⟩
      · rintro ⟨r, h1, h2⟩
        exact ⟨h1, r, h2⟩

theorem substrSearch_iff (q : List Char) : ∀ t : List Char,
    substrSearch q t = true ↔
      ∃ p r, p ++ (q.map Char.toLower) ++ r = t.map Char.toLower := by
  intro t
  induction t with
  | nil =>
    show substrHere q [] = true ↔ _
    rw [substrHere_iff]
    constructor
    · rintro ⟨r, hr⟩
      exact ⟨[], r, by simpa using hr⟩
    · rintro ⟨p, r, hpr⟩
      simp only [List.map_nil, List.append_eq_nil] at hpr
      obtain ⟨⟨hp, hq2⟩, hr⟩ := hpr
      exact ⟨r, by simp [hp, hq2, hr]⟩
  | cons b ts ih =>
    show (substrHere q (b :: ts) || substrSearch q ts) = true ↔ _
    rw [Bool.or_eq_true, substrHere_iff, ih]
    constructor
    · rintro (⟨r, hr⟩ | ⟨p, r, hpr⟩)
      · exact ⟨[], r, by simpa using hr⟩
      · exact ⟨b.toLower :: p, r, by simp [hpr]⟩
    · rintro ⟨p, r, hpr⟩
      cases p with
      | nil =>
        left
        exact ⟨r, by simpa using hpr⟩
      | cons x p' =>
        right
        simp only [List.map_cons, List.cons_append, List.cons.injEq] at hpr
        exact ⟨p', r, hpr.2⟩

/-! ## C6 — `textQuery` is a raw regex, not an escaped substring match -/

/-- **C6, counterexample.** With `textQuery="."` the filter matches the book
titled `"x"` although `"."` is not a substring of `"x"`: the query string is
passed to `$regex` unescaped, so metacharacters are interpreted, refuting
"substring match for arbitrary q including regex metacharacters". -/
theorem textquery_dot_counterexample :
    list_books tagDB (some ".") none none none 50 = [toBookView tagBook] ∧
    isSubstrCI "." tagBook.title = false := by
  decide

/-- **C6 (amended).** `textQuery` is interpreted as a case-insensitive
unanchored regular expression; for every pattern free of regex
metacharacters this coincides with case-insensitive substring matching
(characterized by an explicit decomposition of the lowercased title). -/
theorem textquery_no_metachar_substring (q : String) (b : BookDoc)
    (h : noMetachar q = true) :
    (bookMatches (buildFilter (some q) none none none) b =
      isSubstrCI q b.title) ∧
    (isSubstrCI q b.title = true ↔
      ∃ p r, p ++ (q.data.map Char.toLower) ++ r =
        b.title.data.map Char.toLower) := by
  refine ⟨?_, substrSearch_iff q.data b.title.data⟩
  by_cases hq : q = ""
  · subst hq
    simp [bookMatches, buildFilter, keepTruthy, qCond, tagCond, categoryCond,
      genreCond, isSubstrCI, substrSearch_nil]
  · simp [bookMatches, buildFilter, keepTruthy, qCond, tagCond, categoryCond,
      genreCond, hq, titleRegexMatch, parseRegex_no_metachar h,
      regexSearch_lit, isSubstrCI]

/-- **C6, witness.** The amended theorem at `q = "abc"` against the book
titled `"xAbCx"`. -/
theorem textquery_no_metachar_substring_witness :
    bookMatches (buildFilter (some "abc") none none none) substrBook =
      isSubstrCI "abc" substrBook.title :=
  (textquery_no_metachar_substring "abc" substrBook (by decide)).1

/-! ## C4 — library assembly (`get_library`) -/

/-- **C4, counterexample.** The user's single item holds the UPPERCASE hex
form of a stored book's identifier: it decodes successfully (so it is not
"a book_id that fails identifier decoding") and the referenced book exists
(so it is not "a decoded identifier with no matching Book document"), yet
`get_library` returns the empty list — the claim's "returns exactly the Book
documents referenced by that user's LibraryItems" fails. -/
theorem get_library_uppercase_counterexample :
    get_library upDB "u" = [] ∧
    to_obj_id "AAAAAAAAAAAAAAAAAAAAAAAA" = Except.ok upBook.id ∧
    upDB.books = [upBook] ∧
    (upDB.libraryitems.map (fun it => (it.user_id, it.book_id))) =
      [("u", "AAAAAAAAAAAAAAAAAAAAAAAA")] := by
  decide

theorem bookMapGet_fetched (s : DB) (u : String) (hwf : DB.WF s)
    (bid : String) (hbid : bid ∈ libraryBookIds s u) :
    bookMapGet (libraryFetchedBooks s u) bid = bookMapGet s.books bid := by
  unfold bookMapGet libraryFetchedBooks
  rw [List.filter_filter]
  congr 1
  apply List.filter_congr
  intro b hb
  cases hkey : (oidToString b.id == bid)
  · simp [hkey]
  · have hbidS : bid = oidToString b.id := by
      have h1 : oidToString b.id = bid := by simpa using hkey
      exact h1.symm
    subst hbidS
    have hvalid : objectIdOfString (oidToString b.id) = some b.id :=
      objectIdOfString_oidToString (hwf b hb)
    have hmem : b.id ∈ (libraryBookIds s u).filterMap objectIdOfString :=
      List.mem_filterMap.mpr ⟨oidToString b.id, hbid, hvalid⟩
    have hcont : ((libraryBookIds s u).filterMap objectIdOfString).contains b.id
        = true :=
      List.elem_iff.mpr hmem
    rw [hcont]
    rfl

/-- **C4 (amended).** Over well-formed stores, `get_library` returns, in
save order, for each library item the stored book whose canonical
(lowercase-hex) encoded identifier equals the item's `book_id` — items whose
`book_id` fails decoding, decodes to no stored book, or is a non-canonical
encoding (e.g. uppercase hex) of a stored book's identifier are silently
dropped — and an empty item set yields the empty sequence, never an
error. -/
theorem get_library_save_order (s : DB) (u : String) (hwf : DB.WF s) :
    (get_library s u =
      (libraryBookIds s u).filterMap
        (fun bid => (bookMapGet s.books bid).map toBookView)) ∧
    (s.libraryitems.filter (fun it => it.user_id == u) = [] →
      get_library s u = []) := by
  have hmain : get_library s u =
      (libraryBookIds s u).filterMap
        (fun bid => (bookMapGet s.books bid).map toBookView) := by
    unfold get_library
    apply List.filterMap_congr
    intro bid hbid
    rw [bookMapGet_fetched s u hwf bid hbid]
  refine ⟨hmain, ?_⟩
  intro hempty
  rw [hmain]
  unfold libraryBookIds
  rw [hempty]
  rfl

/-- **C4, witness.** The amended theorem over the spec's fixture: saved
items reference books A, B, C in that order, B has been deleted, and the
result is `[A, C]` in save order. -/
theorem get_library_save_order_witness :
    get_library libDB "u" =
      [toBookView (mkBook 1 "A" []), toBookView (mkBook 3 "C" [])] := by
  have h := (get_library_save_order libDB "u" (by
    unfold DB.WF ObjectId.WF
    decide)).1
  rw [h]
  decide
